import Mathlib

/-!
# Verification of `kvm/rdma/lal.c`

`lal.c` is a single `main` that builds two null-terminated `char *` arrays
(`argv`, `envp`), calls `execve(argv[0], &argv[0], envp)`, and, if the call
returns, prints `Oops!` on `stderr` and returns `-1`.

Embedding:
* a `char *` is `Option String` (`none` is the null pointer `0`), a
  `char *[]` is a list of those, slot by slot;
* the process is an explicit state `Proc` (inherited `environ`, `errno`, and
  the trace of system-level events the process has caused);
* the operating system is a parameter `Kernel`: it decides, for each
  `execve` call, whether the image is replaced (the call does not return) or
  the call fails with some `errno`;
* a C function that may not return (because the image was replaced) returns
  `Option`: `none` means control never came back.
-/

namespace Lal

/-- A `char *[]` array, slot by slot; `none` is the null pointer. -/
abbrev CStrArray := List (Option String)

/-- Outcome of the image-replacement primitive, as decided by the platform. -/
inductive ExecResult where
  | replaced
  | failed (errno : Nat)
  deriving DecidableEq, Repr

/-- The platform: for the raw arguments of an `execve` call, the outcome. -/
abbrev Kernel := Option String → CStrArray → CStrArray → ExecResult

/-- System-level events a process causes. -/
inductive Event where
  | execve (path : Option String) (argv : CStrArray) (envp : CStrArray)
  | write (fd : Nat) (data : String)
  deriving DecidableEq, Repr

/-- Process state: the environment inherited from the parent (`environ`),
`errno`, and the events caused so far (oldest first). -/
structure Proc where
  environ : List String
  errno : Nat
  trace : List Event
  deriving DecidableEq, Repr

/-- File descriptor of `stdout`. -/
def stdoutFd : Nat := 1

/-- File descriptor of `stderr`. -/
def stderrFd : Nat := 2

/-- How the platform reads a null-terminated pointer array: the strings up to
the first null slot. `none` when the array ends before a null slot is found
(the read would run past the array). -/
def cvecRead : CStrArray → Option (List String)
  | [] => none
  | none :: _ => some []
  | some s :: rest => (cvecRead rest).map (fun l => s :: l)

/-- Index of the first null slot of a pointer array, if there is one. -/
def firstNull : CStrArray → Option Nat
  | [] => none
  | none :: _ => some 0
  | some _ :: rest => (firstNull rest).map Nat.succ

/-- The expression `a[i]` on a pointer array (a slot outside the array reads
as null in this model; `main` only reads slot 0 of a 4-slot array). -/
def CStrArray.at (a : CStrArray) (i : Nat) : Option String := (a.get? i).join

/-- The expression `&a[i]` on a pointer array: the array seen from slot `i`. -/
def CStrArray.addrOf (a : CStrArray) (i : Nat) : CStrArray := a.drop i

/-- `execve(path, argv, envp)`: the call is recorded, then the platform
decides. If the image is replaced the call does not return (`none`);
otherwise `errno` is set and the call returns `-1`. The inherited
`environ` of the caller is not an input of the call. -/
def execve (k : Kernel) (path : Option String) (argv envp : CStrArray) (p : Proc) :
    Proc × Option Int :=
  let p1 : Proc := { p with trace := p.trace ++ [Event.execve path argv envp] }
  match k path argv envp with
  | ExecResult.replaced => (p1, none)
  | ExecResult.failed e => ({ p1 with errno := e }, some (-1))

/-- Expansion of a `printf`-style format that is given no further arguments:
`%%` prints one `%`, any other character prints itself, and a conversion
specification (which would need an argument) has no defined output. -/
def formatNoArgs : List Char → Option (List Char)
  | [] => some []
  | '%' :: '%' :: cs => (formatNoArgs cs).map (fun l => '%' :: l)
  | '%' :: _ => none
  | c :: cs => (formatNoArgs cs).map (fun l => c :: l)

/-- `fprintf(stream, fmt)` with no further arguments on an unbuffered stream
with descriptor `fd`: the expanded text is written in one write. A format
with no defined expansion writes nothing in this model. -/
def fprintf (fd : Nat) (fmt : String) (p : Proc) : Proc :=
  match formatNoArgs fmt.data with
  | some out => { p with trace := p.trace ++ [Event.write fd (String.mk out)] }
  | none => p

/-- The initialiser of `char *argv[]` in `main` (4 slots). -/
def main_argv : CStrArray :=
  [some "/home/xenmaster/Desktop/xenmaster/kvm/rdma/echoc", some "-c", some "env", none]

/-- The initialiser of `char *envp[]` in `main` (6 slots). -/
def main_envp : CStrArray :=
  [some "HOME=/", some "PATH=/bin:/usr/bin", some "TZ=UTC0", some "USER=beelzebub",
   some "LOGNAME=tarzan", none]

/-- The function `main` of `lal.c`. The result is the final process state and
the value returned by `main`, or `none` when the image was replaced and
`main` never returned. -/
def main (k : Kernel) (p : Proc) : Proc × Option Int :=
  let argv := main_argv
  let envp := main_envp
  match execve k (argv.at 0) (argv.addrOf 0) envp p with
  | (p1, none) => (p1, none)
  | (p1, some _) =>
    let p2 := fprintf stderrFd "Oops!\n" p1
    (p2, some (-1))

/-- Events caused by one run of `main` started in state `p`. -/
def mainEvents (k : Kernel) (p : Proc) : List Event :=
  (main k p).1.trace.drop p.trace.length

/-- Narrowing of the value returned by `main` to the one-byte exit status the
parent observes (value mod 2^8). -/
def exitStatus (r : Int) : Nat := (r % 256).toNat

/-- State of a freshly started process with inherited environment `env`. -/
def Proc.fresh (env : List String) : Proc := { environ := env, errno := 0, trace := [] }

/-- What an outside observer sees of one process instance: the events it
caused and, if it terminated by returning from `main`, its exit status. -/
structure Observation where
  events : List Event
  exit : Option Nat
  deriving DecidableEq, Repr

/-- One run of the launcher as its own process, under platform `k` and with
inherited environment `env`. -/
def launch (k : Kernel) (env : List String) : Observation :=
  let r := main k (Proc.fresh env)
  { events := r.1.trace, exit := r.2.map exitStatus }

/-- A sequence of runs in separate process instances, each with its own
platform behaviour and inherited environment. -/
def launchAll (runs : List (Kernel × List String)) : List Observation :=
  runs.map (fun r => launch r.1 r.2)

/-- The request of an `execve` call as the platform decodes it. -/
structure ExecRequest where
  path : String
  args : List String
  env : List String
  deriving DecidableEq, Repr

/-- Decoding of the raw arguments of an `execve` call; `none` when the path is
null or one of the arrays has no terminator. -/
def decodeRequest (path : Option String) (argv envp : CStrArray) : Option ExecRequest :=
  match path, cvecRead argv, cvecRead envp with
  | some f, some a, some e => some { path := f, args := a, env := e }
  | _, _, _ => none

/-- The `execve` calls in a list of events, each decoded, in order. -/
def execCalls : List Event → List (Option ExecRequest)
  | [] => []
  | Event.execve f a e :: rest => decodeRequest f a e :: execCalls rest
  | Event.write _ _ :: rest => execCalls rest

/-- Everything written to descriptor `fd` in a list of events, one item per
write, in order. -/
def writesTo (fd : Nat) : List Event → List String
  | [] => []
  | Event.write d s :: rest => if d = fd then s :: writesTo fd rest else writesTo fd rest
  | Event.execve _ _ _ :: rest => writesTo fd rest

/-- The bytes of an ASCII string. -/
def asciiBytes (s : String) : List Nat := s.data.map Char.toNat

/-- The key of an environment entry: the text before its first `=`. -/
def envKey (s : String) : String := String.mk (s.data.takeWhile (fun c => c != '='))

/-- Splitting of an environment entry `KEY=VALUE` at its first `=`; `none`
when the entry has no `=`. -/
def splitEnv (s : String) : Option (String × String) :=
  match s.data.dropWhile (fun c => c != '=') with
  | [] => none
  | _ :: v => some (envKey s, String.mk v)

/-- The `execve` call expression of `main`, as an event:
`execve(argv[0], &argv[0], envp)`. -/
def mainCall : Event :=
  Event.execve (main_argv.at 0) (main_argv.addrOf 0) main_envp

/-- The platform's outcome for the one call `main` makes. -/
def execOutcome (k : Kernel) : ExecResult :=
  k (main_argv.at 0) (main_argv.addrOf 0) main_envp

/-- A concrete platform used to instantiate the theorems: `exes` are the paths
of the executables that exist, `denied` the paths that may not be executed.
A null path or an unterminated array fails with `EFAULT` (14), a denied path
with `EACCES` (13), a missing file with `ENOENT` (2). -/
def fsKernel (exes denied : List String) : Kernel := fun path argv envp =>
  match path with
  | none => ExecResult.failed 14
  | some f =>
    if f ∈ denied then ExecResult.failed 13
    else if f ∈ exes then
      (if (decodeRequest path argv envp).isSome then ExecResult.replaced
       else ExecResult.failed 14)
    else ExecResult.failed 2

/-- The path of the target executable, for use in concrete platforms. -/
def targetPath : String := "/home/xenmaster/Desktop/xenmaster/kvm/rdma/echoc"

/-! ## General facts about the embedding -/

/-- The value of `main`, by outcome of the primitive. -/
theorem main_eq (k : Kernel) (p : Proc) :
    main k p =
      match execOutcome k with
      | ExecResult.replaced => ({ p with trace := p.trace ++ [mainCall] }, none)
      | ExecResult.failed e =>
        ({ environ := p.environ, errno := e,
           trace := p.trace ++ [mainCall, Event.write stderrFd "Oops!\n"] }, some (-1)) := by
  have hf : formatNoArgs "Oops!\n".data = some "Oops!\n".data := by decide
  simp only [main, execve, execOutcome]
  cases h : k (main_argv.at 0) (main_argv.addrOf 0) main_envp with
  | replaced => simp [mainCall]
  | failed e => simp [fprintf, hf, mainCall]

/-- The events of one run of `main`, by outcome of the primitive. -/
theorem mainEvents_eq (k : Kernel) (p : Proc) :
    mainEvents k p =
      match execOutcome k with
      | ExecResult.replaced => [mainCall]
      | ExecResult.failed _ => [mainCall, Event.write stderrFd "Oops!\n"] := by
  unfold mainEvents
  rw [main_eq]
  cases execOutcome k <;> simp

/-- The value returned by `main`, by outcome of the primitive. -/
theorem main_ret_eq (k : Kernel) (p : Proc) :
    (main k p).2 =
      match execOutcome k with
      | ExecResult.replaced => none
      | ExecResult.failed _ => some (-1) := by
  rw [main_eq]
  cases execOutcome k <;> rfl

/-- A pointer array whose first null slot is at index `n` reads, without
running past the array, as a list of `n` strings. -/
theorem cvecRead_of_firstNull (a : CStrArray) (n : Nat) (h : firstNull a = some n) :
    ∃ l, cvecRead a = some l ∧ l.length = n ∧ n < a.length := by
  induction a generalizing n with
  | nil => simp [firstNull] at h
  | cons x rest ih =>
    cases x with
    | none =>
      simp only [firstNull, Option.some.injEq] at h
      subst h
      exact ⟨[], rfl, rfl, by simp⟩
    | some s =>
      simp only [firstNull, Option.map_eq_some'] at h
      obtain ⟨m, hm, rfl⟩ := h
      obtain ⟨l, hl, hlen, hlt⟩ := ih m hm
      exact ⟨s :: l, by simp [cvecRead, hl], by simp [hlen], by simp; omega⟩

/-- Reading a pointer array yields `l` exactly when the array is the strings
of `l`, then a null slot, then anything. -/
theorem cvecRead_eq_some_iff (a : CStrArray) (l : List String) :
    cvecRead a = some l ↔ ∃ rest, a = l.map some ++ none :: rest := by
  induction a generalizing l with
  | nil => simp [cvecRead]
  | cons x rest ih =>
    cases x with
    | none =>
      cases l with
      | nil => simp [cvecRead]
      | cons y ys => simp [cvecRead]
    | some s =>
      cases l with
      | nil => simp [cvecRead]
      | cons y ys =>
        simp only [cvecRead, Option.map_eq_some', List.cons.injEq, List.map_cons,
          List.cons_append, Option.some.injEq]
        constructor
        · rintro ⟨l2, hl2, rfl, rfl⟩
          obtain ⟨r, hr⟩ := (ih _).1 hl2
          exact ⟨r, rfl, hr⟩
        · rintro ⟨r, rfl, hr⟩
          exact ⟨ys, (ih _).2 ⟨r, hr⟩, rfl, rfl⟩

/-- The events of a run in which the primitive fails. -/
theorem mainEvents_of_failed (k : Kernel) (p : Proc) (e : Nat)
    (h : execOutcome k = ExecResult.failed e) :
    mainEvents k p = [mainCall, Event.write stderrFd "Oops!\n"] := by
  rw [mainEvents_eq, h]

/-- The events of a run in which the primitive replaces the image. -/
theorem mainEvents_of_replaced (k : Kernel) (p : Proc)
    (h : execOutcome k = ExecResult.replaced) :
    mainEvents k p = [mainCall] := by
  rw [mainEvents_eq, h]

/-- The value `main` returns when the primitive fails. -/
theorem main_ret_of_failed (k : Kernel) (p : Proc) (e : Nat)
    (h : execOutcome k = ExecResult.failed e) :
    (main k p).2 = some (-1) := by
  rw [main_ret_eq, h]

/-- When the image is replaced, `main` does not return. -/
theorem main_ret_of_replaced (k : Kernel) (p : Proc)
    (h : execOutcome k = ExecResult.replaced) :
    (main k p).2 = none := by
  rw [main_ret_eq, h]

/-- One run as its own process, by outcome of the primitive. -/
theorem launch_eq (k : Kernel) (env : List String) :
    launch k env =
      match execOutcome k with
      | ExecResult.replaced => { events := [mainCall], exit := none }
      | ExecResult.failed _ =>
        { events := [mainCall, Event.write stderrFd "Oops!\n"], exit := some 255 } := by
  unfold launch
  rw [main_eq]
  cases execOutcome k with
  | replaced => simp [Proc.fresh]
  | failed e =>
    have h255 : exitStatus (-1) = 255 := by decide
    simp [Proc.fresh, h255]

/-- The events of a run as its own process are the events of `main` started in
the fresh state. -/
theorem launch_events (k : Kernel) (env : List String) :
    (launch k env).events = mainEvents k (Proc.fresh env) := by
  simp [launch, mainEvents, Proc.fresh]

/-- The decoded `execve` calls of one run of `main`: one call, with the fixed
path, arguments and environment. -/
theorem execCalls_mainEvents (k : Kernel) (p : Proc) :
    execCalls (mainEvents k p) =
      [some { path := "/home/xenmaster/Desktop/xenmaster/kvm/rdma/echoc",
              args := ["/home/xenmaster/Desktop/xenmaster/kvm/rdma/echoc", "-c", "env"],
              env := ["HOME=/", "PATH=/bin:/usr/bin", "TZ=UTC0", "USER=beelzebub",
                      "LOGNAME=tarzan"] }] := by
  rw [mainEvents_eq]
  cases execOutcome k with
  | replaced => decide
  | failed e =>
    show execCalls [mainCall, Event.write stderrFd "Oops!\n"] = _
    decide

/-! ## The claims -/

/-- C1: in every run of `main`, from any process state (so any inherited
environment) and under any platform behaviour, exactly one `execve` request is
made; its argument sequence is the three tokens
`/home/xenmaster/Desktop/xenmaster/kvm/rdma/echoc`, `-c`, `env` in that order,
its path is the first of them, and the path begins with `/`. -/
theorem C1_argument_sequence (k : Kernel) (p : Proc) :
    ∃ r : ExecRequest, execCalls (mainEvents k p) = [some r] ∧
      r.args = ["/home/xenmaster/Desktop/xenmaster/kvm/rdma/echoc", "-c", "env"] ∧
      r.args.head? = some r.path ∧
      r.path.data.head? = some '/' :=
  ⟨_, execCalls_mainEvents k p, rfl, rfl, by decide⟩

/-- C2: in every run of `main` the environment of the one `execve` request is
exactly the five entries `HOME=/`, `PATH=/bin:/usr/bin`, `TZ=UTC0`,
`USER=beelzebub`, `LOGNAME=tarzan`; its length is 5, its keys are `HOME`,
`PATH`, `TZ`, `USER`, `LOGNAME`, pairwise distinct, and every entry splits at
its first `=` into a non-empty key without `=` and a value, and is the key,
`=`, and the value put together again. -/
theorem C2_environment_list (k : Kernel) (p : Proc) :
    ∃ r : ExecRequest, execCalls (mainEvents k p) = [some r] ∧
      r.env = ["HOME=/", "PATH=/bin:/usr/bin", "TZ=UTC0", "USER=beelzebub",
               "LOGNAME=tarzan"] ∧
      r.env.length = 5 ∧
      r.env.map envKey = ["HOME", "PATH", "TZ", "USER", "LOGNAME"] ∧
      (r.env.map envKey).Nodup ∧
      ∀ x ∈ r.env, (splitEnv x).isSome = true ∧ envKey x ≠ "" ∧
        '=' ∉ (envKey x).data ∧
        (splitEnv x).map (fun kv => kv.1 ++ "=" ++ kv.2) = some x :=
  ⟨_, execCalls_mainEvents k p, rfl, rfl, by decide, by decide, by decide⟩

/-- C3 (as stated, refuted): started with the inherited environment
`HOME=/`, `FOO=bar`, on a platform where the target exists, the environment
handed to the primitive contains the inherited entry `HOME=/`, and so the
variable `HOME`. -/
theorem C3_counterexample :
    "HOME=/" ∈ ["HOME=/", "FOO=bar"] ∧
    ∃ r : ExecRequest,
      some r ∈ execCalls (launch (fsKernel [targetPath] []) ["HOME=/", "FOO=bar"]).events ∧
      "HOME=/" ∈ r.env ∧ envKey "HOME=/" ∈ r.env.map envKey := by
  refine ⟨by decide, ?_⟩
  rw [launch_events, execCalls_mainEvents]
  exact ⟨_, List.mem_singleton.2 rfl, by decide, by decide⟩

/-- C3 (amended): the request made to the primitive does not depend on the
inherited environment (nor on the platform): any two runs make the same
request, and under one platform two runs with different inherited
environments are observed identically. An inherited entry whose key is not one
of `HOME`, `PATH`, `TZ`, `USER`, `LOGNAME` (such as `FOO=bar`) is not in the
environment handed to the primitive, neither as an entry nor as a key. -/
theorem C3_environment_not_inherited (k1 k2 : Kernel) (E1 E2 : List String) :
    execCalls (launch k1 E1).events = execCalls (launch k2 E2).events ∧
    launch k1 E1 = launch k1 E2 ∧
    ∀ x ∈ E1, envKey x ∉ ["HOME", "PATH", "TZ", "USER", "LOGNAME"] →
      ∀ r : ExecRequest, some r ∈ execCalls (launch k1 E1).events →
        x ∉ r.env ∧ envKey x ∉ r.env.map envKey := by
  refine ⟨?_, ?_, ?_⟩
  · rw [launch_events, launch_events, execCalls_mainEvents, execCalls_mainEvents]
  · rw [launch_eq, launch_eq]
  · intro x _ hkey r hr
    rw [launch_events, execCalls_mainEvents] at hr
    have hr2 := List.mem_singleton.1 hr
    simp only [Option.some.injEq] at hr2
    subst hr2
    have hkeys : List.map envKey ["HOME=/", "PATH=/bin:/usr/bin", "TZ=UTC0", "USER=beelzebub",
        "LOGNAME=tarzan"] = ["HOME", "PATH", "TZ", "USER", "LOGNAME"] := by decide
    refine ⟨fun hx => hkey ?_, ?_⟩
    · rw [← hkeys]
      exact List.mem_map_of_mem envKey hx
    · show envKey x ∉ List.map envKey _
      rw [hkeys]
      exact hkey

/-- C3 witness: with inherited environment `FOO=bar`, the entry `FOO=bar` is
not handed to the primitive. -/
theorem C3_environment_not_inherited_witness :
    "FOO=bar" ∈ ["FOO=bar"] ∧
    envKey "FOO=bar" ∉ ["HOME", "PATH", "TZ", "USER", "LOGNAME"] ∧
    ∀ r : ExecRequest,
      some r ∈ execCalls (launch (fsKernel [targetPath] []) ["FOO=bar"]).events →
        "FOO=bar" ∉ r.env ∧ envKey "FOO=bar" ∉ r.env.map envKey :=
  ⟨by decide, by decide,
    (C3_environment_not_inherited (fsKernel [targetPath] []) (fsKernel [] []) ["FOO=bar"] []).2.2
      "FOO=bar" (by decide) (by decide)⟩

/-- C4: whenever the primitive fails (with any `errno`), the run of `main`
writes to `stderr` exactly once, the six bytes of `Oops!` and a newline,
writes nothing to `stdout`, the write is the last event of the run, and `main`
returns a value that is non-zero, also after narrowing to an exit status. -/
theorem C4_failure_report (k : Kernel) (p : Proc) (e : Nat)
    (h : execOutcome k = ExecResult.failed e) :
    writesTo stderrFd (mainEvents k p) = ["Oops!\n"] ∧
    asciiBytes "Oops!\n" = [79, 111, 112, 115, 33, 10] ∧
    writesTo stdoutFd (mainEvents k p) = [] ∧
    (mainEvents k p).getLast? = some (Event.write stderrFd "Oops!\n") ∧
    ∃ r : Int, (main k p).2 = some r ∧ r ≠ 0 ∧ exitStatus r ≠ 0 := by
  rw [mainEvents_of_failed k p e h, main_ret_of_failed k p e h]
  exact ⟨by decide, by decide, by decide, by decide, -1, rfl, by decide, by decide⟩

/-- C4 witness: the target does not exist (`ENOENT`). -/
theorem C4_failure_report_witness :
    execOutcome (fsKernel [] []) = ExecResult.failed 2 ∧
    writesTo stderrFd (mainEvents (fsKernel [] []) (Proc.fresh ["FOO=bar"])) = ["Oops!\n"] ∧
    writesTo stdoutFd (mainEvents (fsKernel [] []) (Proc.fresh ["FOO=bar"])) = [] :=
  have h := C4_failure_report (fsKernel [] []) (Proc.fresh ["FOO=bar"]) 2 (by decide)
  ⟨by decide, h.1, h.2.2.1⟩

/-- C5: for any two failure causes (`errno` values) the events of the run, in
particular what is written to `stderr`, the value returned by `main` and the
exit status are the same. -/
theorem C5_cause_independent (k1 k2 : Kernel) (p1 p2 : Proc) (e1 e2 : Nat)
    (h1 : execOutcome k1 = ExecResult.failed e1)
    (h2 : execOutcome k2 = ExecResult.failed e2) :
    writesTo stderrFd (mainEvents k1 p1) = writesTo stderrFd (mainEvents k2 p2) ∧
    mainEvents k1 p1 = mainEvents k2 p2 ∧
    (main k1 p1).2 = (main k2 p2).2 ∧
    (launch k1 p1.environ).exit = (launch k2 p2.environ).exit := by
  rw [mainEvents_eq, mainEvents_eq, main_ret_eq, main_ret_eq, launch_eq, launch_eq, h1, h2]
  exact ⟨rfl, rfl, rfl, rfl⟩

/-- C5 witness: a missing file (`ENOENT`) against a denied one (`EACCES`). -/
theorem C5_cause_independent_witness :
    execOutcome (fsKernel [] []) = ExecResult.failed 2 ∧
    execOutcome (fsKernel [targetPath] [targetPath]) = ExecResult.failed 13 ∧
    writesTo stderrFd (mainEvents (fsKernel [] []) (Proc.fresh [])) =
      writesTo stderrFd (mainEvents (fsKernel [targetPath] [targetPath]) (Proc.fresh [])) ∧
    (main (fsKernel [] []) (Proc.fresh [])).2 =
      (main (fsKernel [targetPath] [targetPath]) (Proc.fresh [])).2 :=
  have h := C5_cause_independent (fsKernel [] []) (fsKernel [targetPath] [targetPath])
    (Proc.fresh []) (Proc.fresh []) 2 13 (by decide) (by decide)
  ⟨by decide, by decide, h.1, h.2.2.1⟩

/-- C6: when the primitive fails, `main` returns the integer `-1`; narrowed
to one byte (value mod 2^8) the exit status is 255, which is neither 0 nor
1. -/
theorem C6_exit_value (k : Kernel) (p : Proc) (e : Nat)
    (h : execOutcome k = ExecResult.failed e) :
    (main k p).2 = some (-1) ∧
    exitStatus (-1) = ((-1 : Int) % 2 ^ 8).toNat ∧
    ∀ s : Nat, (main k p).2.map exitStatus = some s → s = 255 ∧ s ≠ 0 ∧ s ≠ 1 := by
  rw [main_ret_of_failed k p e h]
  refine ⟨rfl, by decide, ?_⟩
  intro s hs
  have h255 : exitStatus (-1) = 255 := by decide
  simp only [Option.map_some', h255, Option.some.injEq] at hs
  subst hs
  decide

/-- C6 witness: the target does not exist. -/
theorem C6_exit_value_witness :
    execOutcome (fsKernel [] []) = ExecResult.failed 2 ∧
    (main (fsKernel [] []) (Proc.fresh [])).2 = some (-1) ∧
    (launch (fsKernel [] []) []).exit = some 255 :=
  ⟨by decide, (C6_exit_value (fsKernel [] []) (Proc.fresh []) 2 (by decide)).1, by decide⟩

/-- C7: when the image is replaced, the one event of the run is the `execve`
call with the fixed path, arguments and environment, nothing is written to
`stderr` or `stdout`, and `main` returns no value (the process has no exit
status of its own). In every run, `Oops!` is written to `stderr` if and only
if the primitive failed, which is exactly when the `execve` call returned. -/
theorem C7_success_path (k : Kernel) (p : Proc) :
    (execOutcome k = ExecResult.replaced →
      mainEvents k p = [mainCall] ∧
      execCalls (mainEvents k p) =
        [some { path := "/home/xenmaster/Desktop/xenmaster/kvm/rdma/echoc",
                args := ["/home/xenmaster/Desktop/xenmaster/kvm/rdma/echoc", "-c", "env"],
                env := ["HOME=/", "PATH=/bin:/usr/bin", "TZ=UTC0", "USER=beelzebub",
                        "LOGNAME=tarzan"] }] ∧
      writesTo stderrFd (mainEvents k p) = [] ∧
      writesTo stdoutFd (mainEvents k p) = [] ∧
      (main k p).2 = none ∧
      (launch k p.environ).exit = none) ∧
    ("Oops!\n" ∈ writesTo stderrFd (mainEvents k p) ↔ ∃ e, execOutcome k = ExecResult.failed e) ∧
    ((execve k (main_argv.at 0) (main_argv.addrOf 0) main_envp p).2 ≠ none ↔
      ∃ e, execOutcome k = ExecResult.failed e) := by
  refine ⟨?_, ?_, ?_⟩
  · intro h
    refine ⟨mainEvents_of_replaced k p h, execCalls_mainEvents k p, ?_, ?_,
      main_ret_of_replaced k p h, ?_⟩
    · rw [mainEvents_of_replaced k p h]
      decide
    · rw [mainEvents_of_replaced k p h]
      decide
    · rw [launch_eq, h]
  · cases h : execOutcome k with
    | replaced =>
      rw [mainEvents_of_replaced k p h]
      simp [writesTo, mainCall]
    | failed e =>
      rw [mainEvents_of_failed k p e h]
      exact ⟨fun _ => ⟨e, rfl⟩, fun _ => by decide⟩
  · unfold execve
    show (match execOutcome k with
      | ExecResult.replaced => _
      | ExecResult.failed e => _ : Proc × Option Int).2 ≠ none ↔ _
    cases execOutcome k with
    | replaced => simp
    | failed e => simp

/-- C7 witness: the target exists and may be executed. -/
theorem C7_success_path_witness :
    execOutcome (fsKernel [targetPath] []) = ExecResult.replaced ∧
    mainEvents (fsKernel [targetPath] []) (Proc.fresh ["FOO=bar"]) = [mainCall] ∧
    (main (fsKernel [targetPath] []) (Proc.fresh ["FOO=bar"])).2 = none :=
  have h := (C7_success_path (fsKernel [targetPath] []) (Proc.fresh ["FOO=bar"])).1 (by decide)
  ⟨by decide, h.1, h.2.2.2.2.1⟩

/-- C8: in a sequence of runs in separate process instances, any two runs in
which the primitive has the same outcome are observed identically (same
events, so same request and same `stderr` output, and same exit status),
whatever their position in the sequence and their inherited environments; and
from any two process states, `main` causes the same events and returns the same
value. -/
theorem C8_deterministic (runs : List (Kernel × List String)) (i j : Nat)
    (r1 r2 : Kernel × List String)
    (hi : runs[i]? = some r1) (hj : runs[j]? = some r2)
    (hsame : execOutcome r1.1 = execOutcome r2.1) :
    (launchAll runs)[i]? = (launchAll runs)[j]? ∧
    (launchAll runs)[i]? = some (launch r1.1 r1.2) ∧
    launch r1.1 r1.2 = launch r2.1 r2.2 ∧
    ∀ p1 p2 : Proc, mainEvents r1.1 p1 = mainEvents r2.1 p2 ∧ (main r1.1 p1).2 = (main r2.1 p2).2 := by
  have hl : launch r1.1 r1.2 = launch r2.1 r2.2 := by rw [launch_eq, launch_eq, hsame]
  refine ⟨?_, ?_, hl, ?_⟩
  · simp [launchAll, List.getElem?_map, hi, hj, hl]
  · simp [launchAll, List.getElem?_map, hi]
  · intro p1 p2
    rw [mainEvents_eq, mainEvents_eq, main_ret_eq, main_ret_eq, hsame]
    exact ⟨rfl, rfl⟩

/-- C8 witness: the first and the third of three runs, both with the target
missing, with a successful run in between. -/
theorem C8_deterministic_witness :
    execOutcome (fsKernel [] []) = execOutcome (fsKernel ["/bin/true"] []) ∧
    (launchAll [(fsKernel [] [], ["A=1"]), (fsKernel [targetPath] [], []),
        (fsKernel ["/bin/true"] [], ["FOO=bar"])])[0]? =
      (launchAll [(fsKernel [] [], ["A=1"]), (fsKernel [targetPath] [], []),
        (fsKernel ["/bin/true"] [], ["FOO=bar"])])[2]? :=
  ⟨by decide,
    (C8_deterministic [(fsKernel [] [], ["A=1"]), (fsKernel [targetPath] [], []),
        (fsKernel ["/bin/true"] [], ["FOO=bar"])] 0 2 (fsKernel [] [], ["A=1"])
        (fsKernel ["/bin/true"] [], ["FOO=bar"]) rfl rfl (by decide)).1⟩

/-- C9: in every run of `main` the primitive is called exactly once; the call
is the first event the run adds to the trace, and no later event of the run
is another `execve` call. -/
theorem C9_single_call (k : Kernel) (p : Proc) :
    (execCalls (mainEvents k p)).length = 1 ∧
    ∃ rest : List Event, mainEvents k p = mainCall :: rest ∧
      (main k p).1.trace = p.trace ++ mainCall :: rest ∧
      execCalls rest = [] := by
  refine ⟨by rw [execCalls_mainEvents]; rfl, ?_⟩
  rw [mainEvents_eq, main_eq]
  cases execOutcome k with
  | replaced => exact ⟨[], rfl, rfl, rfl⟩
  | failed e => exact ⟨[Event.write stderrFd "Oops!\n"], rfl, rfl, rfl⟩

/-- C10: the two arrays of the `execve` call of every run are terminated
vectors: the argument array has 4 slots and its first null slot is slot 3, the
environment array has 6 slots and its first null slot is slot 5; each is its
strings followed by the one null slot, and reading each up to the first null
slot stays inside the array and yields the 3 argument tokens and the 5
environment entries. -/
theorem C10_terminated_vectors (k : Kernel) (p : Proc) :
    ∃ (f : Option String) (a e : CStrArray),
      (mainEvents k p).head? = some (Event.execve f a e) ∧
      a.length = 4 ∧ e.length = 6 ∧
      firstNull a = some 3 ∧ firstNull e = some 5 ∧
      a = List.map some ["/home/xenmaster/Desktop/xenmaster/kvm/rdma/echoc", "-c", "env"]
            ++ [none] ∧
      e = List.map some ["HOME=/", "PATH=/bin:/usr/bin", "TZ=UTC0", "USER=beelzebub",
            "LOGNAME=tarzan"] ++ [none] ∧
      cvecRead a = some ["/home/xenmaster/Desktop/xenmaster/kvm/rdma/echoc", "-c", "env"] ∧
      cvecRead e = some ["HOME=/", "PATH=/bin:/usr/bin", "TZ=UTC0", "USER=beelzebub",
            "LOGNAME=tarzan"] := by
  refine ⟨main_argv.at 0, main_argv.addrOf 0, main_envp, ?_, rfl, rfl, by decide, by decide,
    rfl, rfl, by decide, by decide⟩
  rw [mainEvents_eq]
  cases execOutcome k <;> rfl

end Lal
